import Mathlib

/-!
Verification of the job-orchestration/polling core of the synthetic-data
wizard frontend (`src/components/data-generation.tsx`).

The development shallowly embeds the poller (`pollUntilDone`), the
training-start request handling, the post-training sanity re-check, the
driver's progress-update sites and its step-status mutations, and proves or
refutes the specification's claims about them.

JavaScript numbers are modelled as `JSNum` (NaN or a rational); raw JSON
field values as `JVal`; the poller consumes a list of per-iteration inputs
(abort-flag reading plus fetch outcome) and produces a terminal outcome
together with the list of ticks it delivered to its callback.
-/

namespace SpoofFrontend

/-- A JavaScript number: NaN or an (exact) numeric value. -/
inductive JSNum where
  | nan : JSNum
  | num : ℚ → JSNum
deriving DecidableEq, Repr

/-- JS `Math.min`: NaN-propagating. -/
def jsMin : JSNum → JSNum → JSNum
  | .nan, _ => .nan
  | .num _, .nan => .nan
  | .num a, .num b => .num (min a b)

/-- JS `Math.max`: NaN-propagating. -/
def jsMax : JSNum → JSNum → JSNum
  | .nan, _ => .nan
  | .num _, .nan => .nan
  | .num a, .num b => .num (max a b)

/-- Whether a JS number is an actual number lying in [0,100] (NaN is not). -/
def JSNum.inPercentRange : JSNum → Bool
  | .nan => false
  | .num q => decide (0 ≤ q) && decide (q ≤ 100)

/-- A JSON/JS value as it may appear in a parsed status payload field. -/
inductive JVal where
  | undef : JVal
  | jnull : JVal
  | str : String → JVal
  | num : JSNum → JVal
  | boolean : Bool → JVal
deriving DecidableEq, Repr

/-- ASCII lower-casing of one character (the status strings of interest
are ASCII). -/
def lowerChar (c : Char) : Char :=
  if 65 ≤ c.toNat ∧ c.toNat ≤ 90 then Char.ofNat (c.toNat + 32) else c

/-- ASCII lower-casing of a string, character by character. -/
def toLowerStr (s : String) : String := ⟨s.data.map lowerChar⟩

/-- `safeLower` from the source: lower-case a string, anything else maps
to the empty string (`typeof x === "string" ? x.toLowerCase() : ""`). -/
def safeLower : JVal → String
  | .str s => toLowerStr s
  | _ => ""

/-- `Math.max(0, Math.min(100, Number(raw.percent ?? 0)))` from the source:
an absent (`undefined`/`null`) percent defaults to 0, then the value is
pushed through the NaN-propagating min/max pair. -/
def clampPercent (p : Option JSNum) : JSNum :=
  jsMax (.num 0) (jsMin (.num 100) (p.getD (.num 0)))

/-- Clamp on plain rationals; agrees with `clampPercent` on non-NaN input. -/
def qClamp (x : ℚ) : ℚ := max 0 (min 100 x)

/-- A raw status payload `{ status, percent? }` as returned by
`fetchStatus`; `percent` is absent or a JS number (possibly NaN). -/
structure RawPayload where
  status : JVal
  percent : Option JSNum
deriving DecidableEq, Repr

/-- Outcome of one `fetchStatus` call: a payload, or a thrown
network/parse failure. -/
inductive FetchResult where
  | ok : RawPayload → FetchResult
  | threw : FetchResult
deriving DecidableEq, Repr

/-- Input to one iteration of the polling loop: the value read from
`abortRef.current` at the top of the loop, and the fetch outcome used if
the loop does not abort. -/
structure PollIter where
  abortNow : Bool
  fetch : FetchResult
deriving DecidableEq, Repr

/-- One observation `(percent, status)` delivered to the `onTick`
callback. -/
structure Tick where
  percent : JSNum
  status : String
deriving DecidableEq, Repr

/-- Outcome of the `try`-block body of one polling iteration, mirroring
the source: `return "completed"`, the `throw new Error("Job failed on
server")` (which the loop's own `catch` then handles), a thrown fetch
failure, or falling through to `errors = 0` with the updated
`seenRunning`. -/
inductive TryResult where
  | done : TryResult
  | jobFailedThrown : TryResult
  | fetchThrew : TryResult
  | fellThrough : Bool → TryResult
deriving DecidableEq, Repr

/-- The `try` block of one polling iteration: fetch, normalize status,
clamp percent, deliver the tick, then branch on the normalized status. -/
def tryBody (seenRunning : Bool) (f : FetchResult) : TryResult × List Tick :=
  match f with
  | .threw => (.fetchThrew, [])
  | .ok raw =>
    let status := safeLower raw.status
    let percent := clampPercent raw.percent
    let t : Tick := ⟨percent, status⟩
    if status == "failed" || status == "error" then
      (.jobFailedThrown, [t])
    else
      let seen := seenRunning || (status == "running")
      if status == "completed" && seen then (.done, [t])
      else (.fellThrough seen, [t])

/-- Terminal outcome of `pollUntilDone` on a finite list of iteration
inputs: the loop returned `completed` or `aborted`, threw "Too many
polling errors", or consumed all supplied iterations and is still
looping (with the consecutive-error counter and `seenRunning` it would
carry into the next iteration). -/
inductive PollOutcome where
  | completed : PollOutcome
  | aborted : PollOutcome
  | tooManyErrors : PollOutcome
  | stillPolling : Nat → Bool → PollOutcome
deriving DecidableEq, Repr

/-- The polling loop of `pollUntilDone`, iterated over a finite list of
iteration inputs; returns the outcome and the ticks delivered in order. -/
def pollGo (maxErr : Nat) : Nat → Bool → List PollIter → PollOutcome × List Tick
  | errors, seenRunning, [] => (.stillPolling errors seenRunning, [])
  | errors, seenRunning, it :: rest =>
    if it.abortNow then (.aborted, [])
    else
      match tryBody seenRunning it.fetch with
      | (.done, ts) => (.completed, ts)
      | (.fellThrough seen, ts) =>
        let r := pollGo maxErr 0 seen rest
        (r.1, ts ++ r.2)
      | (.jobFailedThrown, ts) =>
        if maxErr ≤ errors + 1 then (.tooManyErrors, ts)
        else
          let r := pollGo maxErr (errors + 1) seenRunning rest
          (r.1, ts ++ r.2)
      | (.fetchThrew, ts) =>
        if maxErr ≤ errors + 1 then (.tooManyErrors, ts)
        else
          let r := pollGo maxErr (errors + 1) seenRunning rest
          (r.1, ts ++ r.2)

/-- `pollUntilDone`: the loop starts with `errors = 0` and
`seenRunning = !requireRunning`. -/
def pollUntilDone (requireRunning : Bool) (maxErr : Nat)
    (iters : List PollIter) : PollOutcome × List Tick :=
  pollGo maxErr 0 (!requireRunning) iters

/-- Iteration input whose fetch succeeds with the given status string and
percent 0. -/
def okStatus (s : String) : PollIter :=
  ⟨false, .ok ⟨.str s, some (.num 0)⟩⟩

/-- Iteration input whose fetch throws. -/
def errIter : PollIter := ⟨false, .threw⟩

/-- The four pipeline phases, in driver order. -/
inductive Phase where
  | preprocessing : Phase
  | training : Phase
  | generation : Phase
  | validation : Phase
deriving DecidableEq, Repr

/-- The fixed phase weights from the source:
`{ preprocessing: 25, training: 35, generation: 30, validation: 10 }`. -/
def weight : Phase → ℚ
  | .preprocessing => 25
  | .training => 35
  | .generation => 30
  | .validation => 10

/-- The driver's phase order. -/
def phaseOrder : List Phase := [.preprocessing, .training, .generation, .validation]

/-- Modelled from the spec's aggregator contract: the sum of the weights
of all phases strictly before `k`. -/
def cumBeforeSpec (k : Phase) : ℚ :=
  ((phaseOrder.takeWhile (fun ph => ph ≠ k)).map weight).sum

/-- Modelled from the spec's aggregator contract: cumulative prior
weights plus local progress over 100 times this phase's weight. -/
def aggFormulaSpec (k : Phase) (p : ℚ) : ℚ := cumBeforeSpec k + p / 100 * weight k

/-- Every `setOverallProgress` call site of `runGenerationPipeline`, with
the local-progress argument where the site is inside a loop or tick
callback. -/
inductive OverallUpdate where
  | resetRun : OverallUpdate
  | prepTick : ℚ → OverallUpdate
  | prepDone : OverallUpdate
  | trainTick : ℚ → OverallUpdate
  | trainDone : OverallUpdate
  | valTick : ℚ → OverallUpdate
  | runFinish : OverallUpdate
deriving DecidableEq, Repr

/-- The value each `setOverallProgress` site writes, transcribed from the
source (lines 164, 186, 189, 232, 243, 333, 336). -/
def overallValue : OverallUpdate → ℚ
  | .resetRun => 0
  | .prepTick p => p / 100 * weight .preprocessing
  | .prepDone => weight .preprocessing
  | .trainTick p => weight .preprocessing + p / 100 * weight .training
  | .trainDone => weight .preprocessing + weight .training
  | .valTick p =>
      weight .preprocessing + weight .training + weight .generation
        + p / 100 * weight .validation
  | .runFinish => 100

/-- The phase each update site belongs to. -/
def updatePhase : OverallUpdate → Phase
  | .resetRun => .preprocessing
  | .prepTick _ => .preprocessing
  | .prepDone => .preprocessing
  | .trainTick _ => .training
  | .trainDone => .training
  | .valTick _ => .validation
  | .runFinish => .validation

/-- The phase-local progress each update site corresponds to. -/
def updateProgress : OverallUpdate → ℚ
  | .resetRun => 0
  | .prepTick p => p
  | .prepDone => 100
  | .trainTick p => p
  | .trainDone => 100
  | .valTick p => p
  | .runFinish => 100

/-- The simulated loops' progress values: `for (let p = 0; p <= 100; p += 20)`. -/
def simPercents : List ℚ := [0, 20, 40, 60, 80, 100]

/-- The ordered list of `setOverallProgress` sites executed by a
successful run, parameterized by the training poll's (clamped) percent
ticks. Generation performs no overall update (its polling is commented
out in the source). -/
def runUpdates (trainPercents : List ℚ) : List OverallUpdate :=
  [.resetRun] ++ simPercents.map .prepTick ++ [.prepDone]
    ++ trainPercents.map .trainTick ++ [.trainDone]
    ++ simPercents.map .valTick ++ [.runFinish]

/-- The sequence of overall-progress values written during a successful
run. -/
def overallTrace (trainPercents : List ℚ) : List ℚ :=
  (runUpdates trainPercents).map overallValue

/-- Status of one pipeline step, as in the `GenerationStep` interface. -/
inductive StepStatus where
  | pending : StepStatus
  | running : StepStatus
  | completed : StepStatus
  | error : StepStatus
deriving DecidableEq, Repr

/-- One step's `{ status, progress }` pair. -/
structure StepState where
  status : StepStatus
  progress : ℚ
deriving DecidableEq, Repr

/-- The four steps, indexed 0 = preprocessing, 1 = training,
2 = generation, 3 = validation, as in the `steps` array. -/
abbrev Steps := Fin 4 → StepState

/-- All steps pending at progress 0 (the initial `useState` value and the
run-start reset). -/
def initialSteps : Steps := fun _ => ⟨.pending, 0⟩

/-- The run-start `setSteps` reset (lines 158-163). -/
def resetSteps : Steps → Steps := fun _ => initialSteps

/-- Line 181: step 0 running at 0; every other step's status is written
to "pending" (progress kept). -/
def startPreprocessing : Steps → Steps := fun prev i =>
  if i = 0 then { prev i with status := .running, progress := 0 }
  else { prev i with status := .pending }

/-- `setSteps` updating only step `k`'s progress (lines 185, 231, 332). -/
def setStepProgress (k : Fin 4) (p : ℚ) : Steps → Steps := fun prev i =>
  if i = k then { prev i with progress := p } else prev i

/-- `setSteps` marking step `k` completed at 100 (lines 188, 242, 335). -/
def setStepCompleted (k : Fin 4) : Steps → Steps := fun prev i =>
  if i = k then { prev i with status := .completed, progress := 100 } else prev i

/-- `setSteps` marking step `k` error (lines 219, 248, 257, 290). -/
def setStepError (k : Fin 4) : Steps → Steps := fun prev i =>
  if i = k then { prev i with status := .error } else prev i

/-- `setSteps` marking step `k` running at 0, keeping the other steps'
statuses (lines 195-199, 269-273). -/
def setStepRunning (k : Fin 4) : Steps → Steps := fun prev i =>
  if i = k then { prev i with status := .running, progress := 0 } else prev i

/-- The ordered list of `setSteps` mutations executed by a successful
run, transcribed from the source. Note: the validation step is never
marked running — line 328, which would do so, is commented out — and the
generation step is never marked completed (line 314 is commented out). -/
def runStepsMutations (trainPercents : List ℚ) : List (Steps → Steps) :=
  [resetSteps, startPreprocessing]
    ++ simPercents.map (setStepProgress 0)
    ++ [setStepCompleted 0, setStepRunning 1]
    ++ trainPercents.map (setStepProgress 1)
    ++ [setStepCompleted 1, setStepRunning 2]
    ++ simPercents.map (setStepProgress 3)
    ++ [setStepCompleted 3]

/-- All intermediate states when applying a list of mutations in order,
starting state included. -/
def statesOf (st : Steps) : List (Steps → Steps) → List Steps
  | [] => [st]
  | m :: ms => st :: statesOf (m st) ms

/-- The sequence of statuses step `k` passes through during a successful
run. -/
def statusTrace (trainPercents : List ℚ) (k : Fin 4) : List StepStatus :=
  (statesOf initialSteps (runStepsMutations trainPercents)).map fun st => (st k).status

/-- True when a status sequence leaves `pending` and later shows
`pending` again. -/
def reentersPending : List StepStatus → Bool
  | [] => false
  | s :: rest => (s != .pending && rest.contains .pending) || reentersPending rest

/-- The shared mutable state the driver and its continuations touch: the
live run identity (`runIdRef`), the cancellation flag (`abortRef`), the
steps array, the overall progress, and the training debug fields. -/
structure Shared where
  runId : ℕ
  abort : Bool
  steps : Steps
  overall : ℚ
  lastTrainingStatus : String
  seenRunningTraining : Bool

/-- The training poll's `onTick` callback (lines 228-233): writes the
last-status string, the seen-running flag, step 1's progress and the
overall progress. It performs no run-identity or cancellation check. -/
def trainingOnTick (percent : ℚ) (status : String) (s : Shared) : Shared :=
  { s with
    lastTrainingStatus := status ++ " (" ++ toString percent ++ "%)"
    seenRunningTraining := if status == "running" then true else s.seenRunningTraining
    steps := setStepProgress 1 percent s.steps
    overall := weight .preprocessing + percent / 100 * weight .training }

/-- One iteration of the training poll as it acts on shared state: the
poll loop's only guard is `abortRef.current` (the run identity is never
consulted); on a successful fetch the tick callback is invoked with the
lower-cased status and clamped percent. -/
def trainingPollIter (f : Option (String × ℚ)) (s : Shared) : Shared :=
  if s.abort then s
  else
    match f with
    | none => s
    | some (st, rawPercent) => trainingOnTick (qClamp rawPercent) (toLowerStr st) s

/-- One iteration of the preprocessing loop (lines 182-187): the
checkpoint `abortRef.current || runIdRef.current !== myRun` returns
without mutation; otherwise step 0's progress and the overall progress
are written. -/
def prepLoopIter (myRun : ℕ) (p : ℚ) (s : Shared) : Shared :=
  if s.abort || (s.runId != myRun) then s
  else
    { s with
      steps := setStepProgress 0 p s.steps
      overall := p / 100 * weight .preprocessing }

/-- One iteration of the validation loop (lines 329-334), with the same
checkpoint. -/
def valLoopIter (myRun : ℕ) (p : ℚ) (s : Shared) : Shared :=
  if s.abort || (s.runId != myRun) then s
  else
    { s with
      steps := setStepProgress 3 p s.steps
      overall := weight .preprocessing + weight .training + weight .generation
        + p / 100 * weight .validation }

/-- The checkpoint between the sanity re-check and generation
(line 265). -/
def preGenCheckpointPasses (myRun : ℕ) (s : Shared) : Bool :=
  !(s.abort || (s.runId != myRun))

/-- What the run does after a block: continue into generation, or stop. -/
inductive RunCont where
  | proceedToGeneration : RunCont
  | stopRun : RunCont
deriving DecidableEq, Repr

/-- `assertCompleted` (lines 147-150): one status fetch, true iff the
normalized status reads "completed"; a fetch failure propagates as a
thrown error. -/
def assertCompleted (f : FetchResult) : Except Unit Bool :=
  match f with
  | .threw => Except.error ()
  | .ok raw => Except.ok (safeLower raw.status == "completed")

/-- The sanity re-check block before generation (lines 252-263): a false
answer marks step 1 (training) error and stops the run; a thrown fetch
error is caught, only logged, and the run falls through toward
generation. -/
def sanityRecheck (f : FetchResult) (st : Steps) : Steps × RunCont :=
  match assertCompleted f with
  | .ok true => (st, .proceedToGeneration)
  | .ok false => (setStepError 1 st, .stopRun)
  | .error _ => (st, .proceedToGeneration)

/-- The parsed response of the `POST /model/train` request: HTTP
success flag and the body's `job_id` field (if any). -/
structure TrainStartResponse where
  resOk : Bool
  jobIdField : Option JVal
deriving DecidableEq, Repr

/-- Outcome of the training-start fetch itself. -/
inductive TrainStart where
  | netFail : TrainStart
  | resp : TrainStartResponse → TrainStart
deriving DecidableEq, Repr

/-- What the driver does after the training-start block. -/
inductive TrainStartOutcome where
  | abortRun : TrainStartOutcome
  | proceedWithJob : String → TrainStartOutcome
deriving DecidableEq, Repr

/-- The training-start block (lines 201-221): a thrown fetch or a non-ok
response reaches the catch and aborts the run; otherwise
`jobId = typeof data.job_id === "string" ? data.job_id : ""` and the run
proceeds to polling with that job id. -/
def startTraining : TrainStart → TrainStartOutcome
  | .netFail => .abortRun
  | .resp r =>
    if !r.resOk then .abortRun
    else
      .proceedWithJob
        (match r.jobIdField with
          | some (.str s) => s
          | _ => "")

/-- The step mutation of the training-start block: the catch marks
step 1 (training) error (line 219); on success the steps are untouched. -/
def trainStartSteps (r : TrainStart) (st : Steps) : Steps :=
  match startTraining r with
  | .abortRun => setStepError 1 st
  | .proceedWithJob _ => st

/-- Executable non-decreasing check for a rational sequence. -/
def nondecreasing : List ℚ → Bool
  | [] => true
  | [_] => true
  | a :: b :: rest => decide (a ≤ b) && nondecreasing (b :: rest)

/-- Checks that every `completed` or `error` in a status sequence is
preceded by at least one `running`. -/
def terminalAfterRunningAux : Bool → List StepStatus → Bool
  | _, [] => true
  | _, .running :: rest => terminalAfterRunningAux true rest
  | seen, .completed :: rest => seen && terminalAfterRunningAux seen rest
  | seen, .error :: rest => seen && terminalAfterRunningAux seen rest
  | seen, .pending :: rest => terminalAfterRunningAux seen rest

/-- Every terminal status in the sequence is preceded by a `running`. -/
def terminalAfterRunning (l : List StepStatus) : Bool :=
  terminalAfterRunningAux false l

/-- Apply a list of step mutations in order. -/
def applySteps (st : Steps) (ms : List (Steps → Steps)) : Steps :=
  ms.foldl (fun s m => m s) st

/-- A poll iteration whose fetch reports a failed job. -/
def failedPayload : PollIter := ⟨false, .ok ⟨.str "failed", some (.num 0)⟩⟩

/-- A poll iteration whose fetch reports a non-terminal status. -/
def pendingPayload : PollIter := ⟨false, .ok ⟨.str "pending", some (.num 10)⟩⟩

/-- A poll iteration whose fetch reports percent NaN (e.g. the backend
sent a non-numeric `percent` that `Number(...)` turned into NaN). -/
def nanPayload : PollIter := ⟨false, .ok ⟨.str "running", some JSNum.nan⟩⟩

/-- The status sequence completed, running, completed. -/
def seqCRC : List PollIter :=
  [okStatus "completed", okStatus "running", okStatus "completed"]

/-- Shared state just after run 2 has superseded run 1: the new run has
reset the cancellation flag to false (line 154) and is mid-preprocessing
with overall progress 10. -/
def liveAfterRestart : Shared :=
  { runId := 2
    abort := false
    steps := fun i => if i = 0 then ⟨.running, 40⟩ else ⟨.pending, 0⟩
    overall := 10
    lastTrainingStatus := "-"
    seenRunningTraining := false }

/-- Shared state of a run whose cancellation flag is set. -/
def abortedState : Shared :=
  { runId := 1
    abort := true
    steps := initialSteps
    overall := 0
    lastTrainingStatus := "-"
    seenRunningTraining := false }

/-- The step mutations of a successful run up to (excluding) the training
poll's progress ticks: reset, preprocessing start, its six progress
writes, its completion, and the training start. -/
def mutsBeforeTicks : List (Steps → Steps) :=
  [resetSteps, startPreprocessing]
    ++ simPercents.map (setStepProgress 0)
    ++ [setStepCompleted 0, setStepRunning 1]

/-- The step mutations of a successful run after the training poll's
progress ticks: training completion, generation start, the validation
loop's six progress writes, and validation completion. -/
def mutsAfterTicks : List (Steps → Steps) :=
  [setStepCompleted 1, setStepRunning 2]
    ++ simPercents.map (setStepProgress 3)
    ++ [setStepCompleted 3]

/-- The steps state right after training has been started (step 0
completed, step 1 running, steps 2 and 3 pending). -/
def stepsAfterTraining : Steps := applySteps initialSteps mutsBeforeTicks

/-- Two steps states agreeing on every step's status (their progress
values may differ). -/
def statusEq (st st' : Steps) : Prop := ∀ i, (st i).status = (st' i).status

/-- Claim C1 (counterexample): a polling tick delivered to a stale run is
applied, not discarded. With run 2 live (`runId = 2 ≠ 1`, the stale run's
identity) and the cancellation flag clear (a new run resets it to false),
one training-poll iteration delivering `running` at 40 still mutates the
shared overall progress and step 1's progress: the poll loop checks only
the cancellation flag and the tick callback checks nothing. -/
theorem c1_stale_tick_applied :
    liveAfterRestart.runId ≠ 1
    ∧ liveAfterRestart.abort = false
    ∧ (trainingPollIter (some ("running", 40)) liveAfterRestart).overall = 39
    ∧ liveAfterRestart.overall = 10
    ∧ ((trainingPollIter (some ("running", 40)) liveAfterRestart).steps 1).progress = 40
    ∧ (liveAfterRestart.steps 1).progress = 0 := by
  refine ⟨by decide, rfl, ?_, rfl, ?_, rfl⟩
  · simp [trainingPollIter, trainingOnTick, liveAfterRestart, toLowerStr, lowerChar,
      weight, qClamp]
    norm_num
  · simp [trainingPollIter, trainingOnTick, liveAfterRestart, toLowerStr, lowerChar,
      setStepProgress, qClamp]
    norm_num

/-- Claim C1 (amended): at the driver's explicit checkpoints — each
simulated-loop iteration and the pre-generation check — supersession or
cancellation causes a return with no state mutation, and the poll loop
returns without delivering a tick when the cancellation flag is set; but
the poll loop never consults the run identity, so a stale run whose
cancellation flag is clear still has its ticks applied. -/
theorem c1_checkpoints_no_mutation (myRun : ℕ) (p : ℚ) (s : Shared)
    (h : s.abort = true ∨ s.runId ≠ myRun) :
    prepLoopIter myRun p s = s
    ∧ valLoopIter myRun p s = s
    ∧ preGenCheckpointPasses myRun s = false
    ∧ (∀ f, s.abort = true → trainingPollIter f s = s) := by
  have hc : (s.abort || (s.runId != myRun)) = true := by
    rcases h with h | h
    · simp [h]
    · simp [bne_iff_ne, h]
  refine ⟨?_, ?_, ?_, ?_⟩
  · simp [prepLoopIter, hc]
  · simp [valLoopIter, hc]
  · simp [preGenCheckpointPasses, hc]
  · intro f hf
    simp [trainingPollIter, hf]

/-- Witness for the amended C1 at a concrete cancelled state. -/
theorem c1_checkpoints_no_mutation_witness :
    prepLoopIter 1 20 abortedState = abortedState :=
  (c1_checkpoints_no_mutation 1 20 abortedState (Or.inl rfl)).1

/-- With `seenRunning` still false the `try` body can never return
`completed`: that would need the normalized status to be both
"completed" and "running". -/
theorem tryBody_false_ne_done (f : FetchResult) : (tryBody false f).1 ≠ .done := by
  cases f with
  | threw => simp [tryBody]
  | ok raw =>
    simp only [tryBody, Bool.false_or]
    split
    · simp
    · split
      · rename_i hor hc
        rw [Bool.and_eq_true, beq_iff_eq, beq_iff_eq] at hc
        exact absurd (hc.1 ▸ hc.2) (by simp)
      · simp

/-- If the `try` body falls through with `seenRunning` turned on from
false, the tick it just delivered has status "running". -/
theorem tryBody_false_fellThrough_running (f : FetchResult) (ts : List Tick)
    (h : tryBody false f = (.fellThrough true, ts)) :
    ∃ t ∈ ts, t.status = "running" := by
  cases f with
  | threw => simp [tryBody] at h
  | ok raw =>
    simp only [tryBody, Bool.false_or] at h
    revert h
    split
    · intro h
      exact absurd h (by simp)
    · split
      · intro h
        exact absurd h (by simp)
      · intro h
        rw [Prod.mk.injEq] at h
        obtain ⟨h1, h2⟩ := h
        have hseen : (safeLower raw.status == "running") = true := by injection h1
        refine ⟨⟨clampPercent raw.percent, safeLower raw.status⟩,
          h2 ▸ List.mem_singleton_self _, ?_⟩
        simpa [beq_iff_eq] using hseen

/-- If the poll loop, started with `seenRunning = false`, returns
`completed`, then some delivered tick had status "running". -/
theorem pollGo_completed_sees_running (maxErr : ℕ) (iters : List PollIter) :
    ∀ errors : ℕ, (pollGo maxErr errors false iters).1 = .completed →
      ∃ t ∈ (pollGo maxErr errors false iters).2, t.status = "running" := by
  induction iters with
  | nil =>
    intro errors h
    simp [pollGo] at h
  | cons it rest ih =>
    intro errors h
    rw [pollGo] at h ⊢
    by_cases hab : it.abortNow = true
    · rw [if_pos hab] at h
      exact absurd h (by simp)
    · rw [if_neg hab] at h ⊢
      generalize htb : tryBody false it.fetch = tb at h ⊢
      obtain ⟨tr, ts⟩ := tb
      cases tr with
      | done =>
        exact absurd (congrArg Prod.fst htb) (by simpa using tryBody_false_ne_done it.fetch)
      | jobFailedThrown =>
        dsimp only at h ⊢
        by_cases hth : maxErr ≤ errors + 1
        · rw [if_pos hth] at h
          exact absurd h (by simp)
        · rw [if_neg hth] at h ⊢
          dsimp only at h ⊢
          obtain ⟨t, ht, hr⟩ := ih (errors + 1) h
          exact ⟨t, List.mem_append_right ts ht, hr⟩
      | fetchThrew =>
        dsimp only at h ⊢
        by_cases hth : maxErr ≤ errors + 1
        · rw [if_pos hth] at h
          exact absurd h (by simp)
        · rw [if_neg hth] at h ⊢
          dsimp only at h ⊢
          obtain ⟨t, ht, hr⟩ := ih (errors + 1) h
          exact ⟨t, List.mem_append_right ts ht, hr⟩
      | fellThrough seen =>
        dsimp only at h ⊢
        cases seen with
        | true =>
          obtain ⟨t, ht, hr⟩ := tryBody_false_fellThrough_running it.fetch ts htb
          exact ⟨t, List.mem_append_left _ ht, hr⟩
        | false =>
          obtain ⟨t, ht, hr⟩ := ih 0 h
          exact ⟨t, List.mem_append_right ts ht, hr⟩

/-- Claim C2: with `requireRunning = true` the poller returns `completed`
only after having delivered a tick with status "running"; on the status
sequence completed, running, completed it is still looping after the
first observation and terminates on the third; with
`requireRunning = false` the first `completed` observation terminates the
poll after a single tick. -/
theorem c2_require_running :
    (∀ maxErr iters, (pollUntilDone true maxErr iters).1 = .completed →
      ∃ t ∈ (pollUntilDone true maxErr iters).2, t.status = "running")
    ∧ (pollUntilDone true 5 [okStatus "completed"]).1 = .stillPolling 0 false
    ∧ (pollUntilDone true 5 seqCRC).1 = .completed
    ∧ (pollUntilDone true 5 seqCRC).2.length = 3
    ∧ (∀ rest, pollUntilDone false 5 (okStatus "completed" :: rest)
        = (.completed, [⟨.num 0, "completed"⟩])) := by
  refine ⟨?_, by decide, by decide, by decide, fun rest => rfl⟩
  intro maxErr iters h
  exact pollGo_completed_sees_running maxErr iters 0 h

/-- Witness for C2 at the concrete sequence completed, running,
completed. -/
theorem c2_require_running_witness :
    ∃ t ∈ (pollUntilDone true 5 seqCRC).2, t.status = "running" :=
  c2_require_running.1 5 seqCRC (by decide)

/-- Claim C3 (code bug): one observation of a failed status is not fatal
to the poll. The `throw new Error("Job failed on server")` sits inside
the loop's own `try` and is handled by its `catch`, which merely
increments the consecutive-error counter: after a single `failed`
observation the poll is still looping (counter at 1), and only after five
consecutive `failed` observations does it fail — with "Too many polling
errors", never with the job-failed condition. -/
theorem c3_failed_status_not_fatal :
    (tryBody true (.ok ⟨.str "failed", some (.num 0)⟩)).1 = .jobFailedThrown
    ∧ (pollUntilDone false 5 [failedPayload]).1 = .stillPolling 1 true
    ∧ (pollUntilDone false 5 (List.replicate 5 failedPayload)).1 = .tooManyErrors := by
  decide

/-- Claim C4 (counterexample): when the sanity re-fetch itself fails, the
run does not stop and phase 2 is not marked error — the catch only logs
and execution falls through toward generation. -/
theorem c4_sanity_fetch_failure_proceeds :
    (sanityRecheck .threw initialSteps).2 = .proceedToGeneration
    ∧ ((sanityRecheck .threw initialSteps).1 1).status = .pending := by
  decide

/-- Claim C4 (amended): after the training poll succeeds the driver
re-fetches the job status; a successful re-fetch that does not read
`completed` marks phase 2 error and stops the run before generation; a
re-fetch reading `completed` proceeds; but a re-fetch that throws is
caught, only logged, and the run proceeds to generation. -/
theorem c4_sanity_recheck (raw : RawPayload) (st : Steps) :
    (safeLower raw.status ≠ "completed" →
      sanityRecheck (.ok raw) st = (setStepError 1 st, .stopRun))
    ∧ (safeLower raw.status = "completed" →
      sanityRecheck (.ok raw) st = (st, .proceedToGeneration))
    ∧ sanityRecheck .threw st = (st, .proceedToGeneration) := by
  refine ⟨?_, ?_, ?_⟩
  · intro h
    rw [sanityRecheck, assertCompleted, beq_eq_false_iff_ne.mpr h]
  · intro h
    rw [sanityRecheck, assertCompleted, beq_iff_eq.mpr h]
  · rfl

/-- Witness for the amended C4: a re-check reading `pending` stops the
run with phase 2 in error. -/
theorem c4_sanity_recheck_witness :
    sanityRecheck (.ok ⟨.str "pending", some (.num 100)⟩) initialSteps
      = (setStepError 1 initialSteps, .stopRun) :=
  (c4_sanity_recheck ⟨.str "pending", some (.num 100)⟩ initialSteps).1 (by decide)

/-- Claim C5 (counterexample): an HTTP-success training-start response
whose body has no `job_id` does not fail the run. The job id is coerced
to the empty string, no step is marked error, and the run proceeds to
poll with that empty job id. -/
theorem c5_missing_job_id_proceeds :
    startTraining (.resp ⟨true, none⟩) = .proceedWithJob ""
    ∧ trainStartSteps (.resp ⟨true, none⟩) initialSteps = initialSteps
    ∧ TrainStartOutcome.proceedWithJob "" ≠ .abortRun := by
  decide

/-- Claim C5 (amended): a thrown training-start fetch or a non-success
response is a hard failure — step 1 is marked error and the run aborts
before polling; but an HTTP-success response whose `job_id` is missing or
not a string is not: the job id is coerced to `""` and the run proceeds
to polling with it. -/
theorem c5_train_start (st : Steps) :
    startTraining .netFail = .abortRun
    ∧ (∀ j, startTraining (.resp ⟨false, j⟩) = .abortRun)
    ∧ (∀ r, startTraining r = .abortRun → trainStartSteps r st = setStepError 1 st)
    ∧ (∀ s, startTraining (.resp ⟨true, some (.str s)⟩) = .proceedWithJob s)
    ∧ (∀ v, (∀ s, v ≠ JVal.str s) →
        startTraining (.resp ⟨true, some v⟩) = .proceedWithJob "")
    ∧ startTraining (.resp ⟨true, none⟩) = .proceedWithJob "" := by
  refine ⟨rfl, fun _ => rfl, ?_, fun _ => rfl, ?_, rfl⟩
  · intro r h
    simp [trainStartSteps, h]
  · intro v hv
    cases v with
    | str s => exact absurd rfl (hv s)
    | undef => rfl
    | jnull => rfl
    | num x => rfl
    | boolean b => rfl

/-- Witness for the amended C5: a response with a null `job_id` proceeds
with the empty job id; a non-ok response aborts with step 1 in error. -/
theorem c5_train_start_witness :
    startTraining (.resp ⟨true, some .jnull⟩) = .proceedWithJob ""
    ∧ trainStartSteps .netFail initialSteps = setStepError 1 initialSteps :=
  ⟨(c5_train_start initialSteps).2.2.2.2.1 .jnull (fun _ h => JVal.noConfusion h),
   (c5_train_start initialSteps).2.2.1 .netFail rfl⟩

/-- Claim C6 (counterexample): a `percent` of NaN is propagated raw to
the tick callback, not clamped: `Math.max(0, Math.min(100, NaN))` is NaN,
so the tick delivered for a payload with percent NaN carries NaN, which
lies outside [0,100]. -/
theorem c6_nan_percent_propagates :
    (pollUntilDone false 5 [nanPayload]).2 = [⟨JSNum.nan, "running"⟩]
    ∧ JSNum.nan.inPercentRange = false := by
  decide

/-- Claim C6 (amended): an absent percent defaults to 0 and an actual
numeric percent is clamped into [0,100] (negative and over-100 values
included), but a NaN percent is propagated raw as NaN. -/
theorem c6_percent_clamping :
    (∀ q : ℚ, clampPercent (some (.num q)) = .num (qClamp q)
      ∧ (clampPercent (some (.num q))).inPercentRange = true)
    ∧ clampPercent none = .num 0
    ∧ clampPercent (some .nan) = .nan := by
  refine ⟨fun q => ⟨rfl, ?_⟩, rfl, rfl⟩
  simp only [clampPercent, Option.getD, jsMin, jsMax, JSNum.inPercentRange]
  rw [Bool.and_eq_true, decide_eq_true_eq, decide_eq_true_eq]
  exact ⟨le_max_left 0 _, max_le (by norm_num) (min_le_left 100 q)⟩

/-- Witness for the amended C6: an over-100 percent of 250 is clamped to
a value inside [0,100]. -/
theorem c6_percent_clamping_witness :
    (clampPercent (some (.num 250))).inPercentRange = true :=
  (c6_percent_clamping.1 250).2

/-- Claim C7: with the default threshold of 5, five consecutive fetch
failures make the poll fail with "too many polling errors", while four
failures followed by one successful non-terminal fetch reset the counter
to 0 and the poll keeps looping. -/
theorem c7_consecutive_error_threshold :
    (pollUntilDone false 5 (List.replicate 5 errIter)).1 = .tooManyErrors
    ∧ (pollUntilDone false 5 (List.replicate 4 errIter ++ [pendingPayload])).1
        = .stillPolling 0 true := by
  decide

/-- The four values of `cumBeforeSpec`, evaluated. -/
theorem cumBeforeSpec_eval :
    cumBeforeSpec .preprocessing = 0 ∧ cumBeforeSpec .training = 25
    ∧ cumBeforeSpec .generation = 60 ∧ cumBeforeSpec .validation = 90 := by
  have t1 : phaseOrder.takeWhile (fun ph => ph ≠ Phase.preprocessing) = [] := rfl
  have t2 : phaseOrder.takeWhile (fun ph => ph ≠ Phase.training)
      = [Phase.preprocessing] := rfl
  have t3 : phaseOrder.takeWhile (fun ph => ph ≠ Phase.generation)
      = [Phase.preprocessing, Phase.training] := rfl
  have t4 : phaseOrder.takeWhile (fun ph => ph ≠ Phase.validation)
      = [Phase.preprocessing, Phase.training, Phase.generation] := rfl
  refine ⟨?_, ?_, ?_, ?_⟩
  · rw [cumBeforeSpec, t1]
    norm_num
  · rw [cumBeforeSpec, t2]
    norm_num [weight]
  · rw [cumBeforeSpec, t3]
    norm_num [weight]
  · rw [cumBeforeSpec, t4]
    norm_num [weight]

/-- Claim C8: every overall-progress value the driver writes for a phase
at local progress p in [0,100] equals the aggregator formula (cumulative
prior weights plus p/100 times the phase's weight), lies in [0,100], and
at p = 100 equals the cumulative weight of the phases through that one. -/
theorem c8_overall_formula (u : OverallUpdate) (h0 : 0 ≤ updateProgress u)
    (h1 : updateProgress u ≤ 100) :
    overallValue u = aggFormulaSpec (updatePhase u) (updateProgress u)
    ∧ 0 ≤ overallValue u ∧ overallValue u ≤ 100
    ∧ (updateProgress u = 100 →
      overallValue u = cumBeforeSpec (updatePhase u) + weight (updatePhase u)) := by
  obtain ⟨e1, e2, e3, e4⟩ := cumBeforeSpec_eval
  cases u with
  | resetRun =>
    simp only [overallValue, updatePhase, updateProgress, weight, aggFormulaSpec, e1]
    exact ⟨by norm_num, le_refl 0, by norm_num, fun hp => absurd hp (by norm_num)⟩
  | prepTick p =>
    simp only [overallValue, updatePhase, updateProgress, weight, aggFormulaSpec, e1]
      at h0 h1 ⊢
    refine ⟨by ring_nf, by linarith, by linarith, fun hp => by rw [hp]; norm_num⟩
  | prepDone =>
    simp only [overallValue, updatePhase, updateProgress, weight, aggFormulaSpec, e1]
    exact ⟨by norm_num, by norm_num, by norm_num, fun _ => by norm_num⟩
  | trainTick p =>
    simp only [overallValue, updatePhase, updateProgress, weight, aggFormulaSpec, e2]
      at h0 h1 ⊢
    refine ⟨by ring_nf, by linarith, by linarith, fun hp => by rw [hp]; norm_num⟩
  | trainDone =>
    simp only [overallValue, updatePhase, updateProgress, weight, aggFormulaSpec, e2]
    exact ⟨by norm_num, by norm_num, by norm_num, fun _ => by norm_num⟩
  | valTick p =>
    simp only [overallValue, updatePhase, updateProgress, weight, aggFormulaSpec, e4]
      at h0 h1 ⊢
    refine ⟨by ring_nf, by linarith, by linarith, fun hp => by rw [hp]; norm_num⟩
  | runFinish =>
    simp only [overallValue, updatePhase, updateProgress, weight, aggFormulaSpec, e4]
    exact ⟨by norm_num, by norm_num, by norm_num, fun _ => by norm_num⟩

/-- Witness for C8 at the training tick site with local progress 40. -/
theorem c8_overall_formula_witness :
    overallValue (.trainTick 40) = aggFormulaSpec .training 40
    ∧ 0 ≤ overallValue (.trainTick 40) ∧ overallValue (.trainTick 40) ≤ 100 :=
  ⟨(c8_overall_formula (.trainTick 40) (by norm_num [updateProgress])
      (by norm_num [updateProgress])).1,
   (c8_overall_formula (.trainTick 40) (by norm_num [updateProgress])
      (by norm_num [updateProgress])).2.1,
   (c8_overall_formula (.trainTick 40) (by norm_num [updateProgress])
      (by norm_num [updateProgress])).2.2.1⟩

/-- `nondecreasing` agrees with `Chain' (· ≤ ·)`. -/
theorem nondecreasing_iff : ∀ l : List ℚ, nondecreasing l = true ↔ List.Chain' (· ≤ ·) l
  | [] => by simp [nondecreasing]
  | [a] => by simp [nondecreasing]
  | a :: b :: rest => by
    rw [nondecreasing, Bool.and_eq_true, decide_eq_true_eq, List.chain'_cons,
      nondecreasing_iff (b :: rest)]

/-- The overall trace of a full run, in closed form. -/
theorem overallTrace_eq (ps : List ℚ) :
    overallTrace ps
      = ([0, 0, 5, 10, 15, 20, 25, 25] : List ℚ)
        ++ ((ps.map fun x => 25 + x / 100 * 35)
          ++ ([60, 90, 92, 94, 96, 98, 100, 100] : List ℚ)) := by
  simp only [overallTrace, runUpdates, List.map_append, List.map_map, List.map_cons,
    List.map_nil, simPercents, Function.comp_def, overallValue, weight]
  norm_num

/-- Claim C9 (counterexample): with backend-reported training percents
80 then 40 — each inside [0,100] — the overall-progress sequence written
by the driver decreases (…, 53, 39, …): the driver applies each tick's
percent directly, so a backend whose percents go down drags the overall
bar down within one run. -/
theorem c9_overall_can_decrease :
    (∀ x ∈ [(80 : ℚ), 40], 0 ≤ x ∧ x ≤ 100)
    ∧ nondecreasing (overallTrace [80, 40]) = false := by
  constructor
  · intro x hx
    simp only [List.mem_cons, List.mem_singleton, List.not_mem_nil, or_false] at hx
    rcases hx with rfl | rfl <;> norm_num
  · rw [overallTrace_eq]
    norm_num [nondecreasing]

/-- Claim C9 (amended): within one run the overall-progress sequence is
non-decreasing provided the training poll's percent values are themselves
non-decreasing (they are already clamped to [0,100]); the driver does not
enforce monotonicity against a backend whose percents go down. -/
theorem c9_overall_monotone (ps : List ℚ) (hb : ∀ x ∈ ps, 0 ≤ x ∧ x ≤ 100)
    (hm : nondecreasing ps = true) :
    nondecreasing (overallTrace ps) = true := by
  rw [nondecreasing_iff] at hm ⊢
  rw [overallTrace_eq]
  have hA : List.Chain' (· ≤ ·) ([0, 0, 5, 10, 15, 20, 25, 25] : List ℚ) := by
    rw [← nondecreasing_iff]
    decide
  have hB : List.Chain' (· ≤ ·) ([60, 90, 92, 94, 96, 98, 100, 100] : List ℚ) := by
    rw [← nondecreasing_iff]
    decide
  have hT : List.Chain' (· ≤ ·) (ps.map fun x => 25 + x / 100 * 35) := by
    rw [List.chain'_map]
    exact hm.imp fun a b hab => by linarith
  have hTB : List.Chain' (· ≤ ·)
      ((ps.map fun x => 25 + x / 100 * 35)
        ++ ([60, 90, 92, 94, 96, 98, 100, 100] : List ℚ)) := by
    refine hT.append hB ?_
    intro x hx y hy
    have hy60 : (60 : ℚ) = y := by simpa using hy
    have hxm : x ∈ ps.map fun x => 25 + x / 100 * 35 := List.mem_of_mem_getLast? hx
    obtain ⟨q, hq, rfl⟩ := List.mem_map.mp hxm
    have hq100 := (hb q hq).2
    rw [← hy60]
    linarith
  refine hA.append hTB ?_
  intro x hx y hy
  have hx25 : (25 : ℚ) = x := by
    rw [show ([0, 0, 5, 10, 15, 20, 25, 25] : List ℚ).getLast? = some 25 from rfl] at hx
    simpa using hx
  rw [← hx25]
  rcases ps with _ | ⟨p, tl⟩
  · have hy60 : (60 : ℚ) = y := by simpa using hy
    rw [← hy60]
    norm_num
  · have hyp : 25 + p / 100 * 35 = y := by simpa using hy
    have hp0 := (hb p (List.mem_cons_self p tl)).1
    rw [← hyp]
    linarith

/-- Witness for the amended C9 with a non-decreasing percent sequence. -/
theorem c9_overall_monotone_witness :
    nondecreasing (overallTrace [40, 80]) = true :=
  c9_overall_monotone [40, 80]
    (by
      intro x hx
      simp only [List.mem_cons, List.mem_singleton, List.not_mem_nil, or_false] at hx
      rcases hx with rfl | rfl <;> norm_num)
    (by decide)

/-- Grouping of the successful run's step mutations around the training
ticks. -/
theorem runStepsMutations_decomp (ps : List ℚ) :
    runStepsMutations ps
      = mutsBeforeTicks ++ (ps.map (setStepProgress 1) ++ mutsAfterTicks) := by
  simp [runStepsMutations, mutsBeforeTicks, mutsAfterTicks]

/-- Applying a cons of mutations. -/
theorem applySteps_cons (m : Steps → Steps) (ms : List (Steps → Steps)) (st : Steps) :
    applySteps st (m :: ms) = applySteps (m st) ms := rfl

/-- The state list always starts with the starting state. -/
theorem statesOf_cons_head (st : Steps) (ms : List (Steps → Steps)) :
    ∃ tl, statesOf st ms = st :: tl := by
  cases ms with
  | nil => exact ⟨[], rfl⟩
  | cons m ms => exact ⟨_, rfl⟩

/-- Splitting the state list of an appended mutation list. -/
theorem statesOf_append :
    ∀ (l1 : List (Steps → Steps)) (st : Steps) (l2 : List (Steps → Steps)),
      statesOf st (l1 ++ l2)
        = (statesOf st l1).dropLast ++ statesOf (applySteps st l1) l2
  | [], st, l2 => by simp [statesOf, applySteps]
  | m :: ms, st, l2 => by
    obtain ⟨tl, htl⟩ := statesOf_cons_head (m st) ms
    show st :: statesOf (m st) (ms ++ l2)
      = (st :: statesOf (m st) ms).dropLast ++ statesOf (applySteps (m st) ms) l2
    rw [statesOf_append ms (m st) l2, htl, List.dropLast_cons₂, List.cons_append]

/-- A progress write never changes any step's status. -/
theorem setStepProgress_status (j : Fin 4) (p : ℚ) (st : Steps) (i : Fin 4) :
    (setStepProgress j p st i).status = (st i).status := by
  by_cases h : i = j <;> simp [setStepProgress, h]

/-- Status after marking step `j` completed. -/
theorem setStepCompleted_status (j : Fin 4) (st : Steps) (i : Fin 4) :
    (setStepCompleted j st i).status
      = if i = j then StepStatus.completed else (st i).status := by
  by_cases h : i = j <;> simp [setStepCompleted, h]

/-- Status after marking step `j` running. -/
theorem setStepRunning_status (j : Fin 4) (st : Steps) (i : Fin 4) :
    (setStepRunning j st i).status
      = if i = j then StepStatus.running else (st i).status := by
  by_cases h : i = j <;> simp [setStepRunning, h]

/-- Progress writes respect status equivalence. -/
theorem statusEq_setStepProgress (j : Fin 4) (p : ℚ) {st st' : Steps}
    (h : statusEq st st') :
    statusEq (setStepProgress j p st) (setStepProgress j p st') := by
  intro i
  rw [setStepProgress_status, setStepProgress_status, h i]

/-- Completion marks respect status equivalence. -/
theorem statusEq_setStepCompleted (j : Fin 4) {st st' : Steps}
    (h : statusEq st st') :
    statusEq (setStepCompleted j st) (setStepCompleted j st') := by
  intro i
  rw [setStepCompleted_status, setStepCompleted_status, h i]

/-- Running marks respect status equivalence. -/
theorem statusEq_setStepRunning (j : Fin 4) {st st' : Steps}
    (h : statusEq st st') :
    statusEq (setStepRunning j st) (setStepRunning j st') := by
  intro i
  rw [setStepRunning_status, setStepRunning_status, h i]

/-- Every mutation after the training ticks respects status
equivalence. -/
theorem mutsAfterTicks_respect :
    ∀ m ∈ mutsAfterTicks, ∀ st st', statusEq st st' → statusEq (m st) (m st') := by
  intro m hm
  simp only [mutsAfterTicks, simPercents, List.map_cons, List.map_nil, List.cons_append,
    List.nil_append, List.mem_cons, List.not_mem_nil, or_false] at hm
  rcases hm with rfl | rfl | rfl | rfl | rfl | rfl | rfl | rfl | rfl
  · exact fun st st' h => statusEq_setStepCompleted 1 h
  · exact fun st st' h => statusEq_setStepRunning 2 h
  · exact fun st st' h => statusEq_setStepProgress 3 0 h
  · exact fun st st' h => statusEq_setStepProgress 3 20 h
  · exact fun st st' h => statusEq_setStepProgress 3 40 h
  · exact fun st st' h => statusEq_setStepProgress 3 60 h
  · exact fun st st' h => statusEq_setStepProgress 3 80 h
  · exact fun st st' h => statusEq_setStepProgress 3 100 h
  · exact fun st st' h => statusEq_setStepCompleted 3 h

/-- Applying any sequence of training progress ticks leaves every step's
status unchanged. -/
theorem applySteps_ticks_statusEq (j : Fin 4) :
    ∀ (ps : List ℚ) (st : Steps),
      statusEq (applySteps st (ps.map (setStepProgress j))) st
  | [], _ => fun _ => rfl
  | p :: tl, st => by
    intro i
    rw [List.map_cons, applySteps_cons]
    calc (applySteps (setStepProgress j p st) (tl.map (setStepProgress j)) i).status
        = (setStepProgress j p st i).status := applySteps_ticks_statusEq j tl _ i
      _ = (st i).status := setStepProgress_status j p st i

/-- The status trace across a run of progress ticks is constant. -/
theorem statesOf_ticks_map_status (j k : Fin 4) :
    ∀ (ps : List ℚ) (st : Steps),
      (statesOf st (ps.map (setStepProgress j))).map (fun s => (s k).status)
        = List.replicate (ps.length + 1) ((st k).status)
  | [], st => by simp [statesOf]
  | p :: tl, st => by
    rw [List.map_cons]
    show ((st :: statesOf (setStepProgress j p st) (tl.map (setStepProgress j))).map
        fun s => (s k).status) = _
    rw [List.map_cons, statesOf_ticks_map_status j k tl, setStepProgress_status,
      List.length_cons]
    rfl

/-- Status-equivalent starting states give the same status trace, for
mutations that respect status equivalence. -/
theorem statusEq_statesOf_map (k : Fin 4) :
    ∀ (ms : List (Steps → Steps)),
      (∀ m ∈ ms, ∀ st st', statusEq st st' → statusEq (m st) (m st')) →
      ∀ st st', statusEq st st' →
        (statesOf st ms).map (fun s => (s k).status)
          = (statesOf st' ms).map (fun s => (s k).status)
  | [], _, st, st', h => by simp [statesOf, h k]
  | m :: ms, hms, st, st', h => by
    simp only [statesOf, List.map_cons]
    rw [h k, statusEq_statesOf_map k ms
      (fun m' hm' => hms m' (List.mem_cons_of_mem m hm'))
      (m st) (m st') (hms m (List.mem_cons_self m ms) st st' h)]

/-- The status trace of any step during a successful run decomposes into
the concrete prefix up to the training poll, a constant block one entry
per training tick, and the concrete suffix. -/
theorem statusTrace_decomposed (ps : List ℚ) (k : Fin 4) :
    statusTrace ps k
      = ((statesOf initialSteps mutsBeforeTicks).dropLast.map fun s => (s k).status)
        ++ (List.replicate ps.length ((stepsAfterTraining k).status)
          ++ ((statesOf stepsAfterTraining mutsAfterTicks).map fun s => (s k).status)) := by
  rw [statusTrace, runStepsMutations_decomp, statesOf_append, List.map_append]
  congr 1
  rw [show applySteps initialSteps mutsBeforeTicks = stepsAfterTraining from rfl,
    statesOf_append, List.map_append]
  congr 1
  · rw [List.map_dropLast, statesOf_ticks_map_status 1 k ps stepsAfterTraining,
      List.replicate_succ', List.dropLast_concat]
  · exact statusEq_statesOf_map k mutsAfterTicks mutsAfterTicks_respect _ _
      (applySteps_ticks_statusEq 1 ps stepsAfterTraining)

/-- A pending block does not affect the terminal-after-running check. -/
theorem terminalAfterRunningAux_replicate_pending (s : Bool) :
    ∀ (n : ℕ) (l : List StepStatus),
      terminalAfterRunningAux s (List.replicate n .pending ++ l)
        = terminalAfterRunningAux s l
  | 0, _ => rfl
  | n + 1, l => by
    rw [List.replicate_succ, List.cons_append]
    show terminalAfterRunningAux s (List.replicate n .pending ++ l) = _
    exact terminalAfterRunningAux_replicate_pending s n l

/-- Once running has been seen, a completed block keeps the check
satisfied. -/
theorem terminalAfterRunningAux_replicate_completed :
    ∀ (n : ℕ) (l : List StepStatus),
      terminalAfterRunningAux true (List.replicate n .completed ++ l)
        = terminalAfterRunningAux true l
  | 0, _ => rfl
  | n + 1, l => by
    rw [List.replicate_succ, List.cons_append]
    show (true && terminalAfterRunningAux true (List.replicate n .completed ++ l)) = _
    rw [Bool.true_and]
    exact terminalAfterRunningAux_replicate_completed n l

/-- A running block followed by a running entry turns the seen flag on. -/
theorem terminalAfterRunningAux_replicate_running (s : Bool) :
    ∀ (n : ℕ) (l : List StepStatus),
      terminalAfterRunningAux s (List.replicate n .running ++ .running :: l)
        = terminalAfterRunningAux true l
  | 0, _ => rfl
  | n + 1, l => by
    rw [List.replicate_succ, List.cons_append]
    show terminalAfterRunningAux true (List.replicate n .running ++ .running :: l) = _
    exact terminalAfterRunningAux_replicate_running true n l

/-- A pending head never witnesses a pending re-entry by itself. -/
theorem reentersPending_cons_pending (l : List StepStatus) :
    reentersPending (.pending :: l) = reentersPending l := by
  simp [reentersPending]

/-- A pending block never witnesses a pending re-entry. -/
theorem reentersPending_replicate_pending :
    ∀ (n : ℕ) (l : List StepStatus),
      reentersPending (List.replicate n .pending ++ l) = reentersPending l
  | 0, _ => rfl
  | n + 1, l => by
    rw [List.replicate_succ, List.cons_append, reentersPending_cons_pending]
    exact reentersPending_replicate_pending n l

/-- A pending-free sequence never re-enters pending. -/
theorem reentersPending_of_no_pending :
    ∀ (l : List StepStatus), StepStatus.pending ∉ l → reentersPending l = false
  | [], _ => rfl
  | s :: rest, h => by
    simp only [List.mem_cons, not_or] at h
    show ((s != .pending && rest.contains .pending) || reentersPending rest) = false
    rw [reentersPending_of_no_pending rest h.2, Bool.or_false]
    simp [List.contains, List.elem_eq_mem, h.2]


/-- Claim C10 (counterexample): in a successful run (training ticks 40
then 80) the validation step reaches `completed` without ever having been
`running` — the line that would mark validation running is commented out
in the source, so it jumps from pending straight to completed. -/
theorem c10_validation_never_running :
    StepStatus.completed ∈ statusTrace [40, 80] 3
    ∧ StepStatus.running ∉ statusTrace [40, 80] 3 := by
  decide

/-- Claim C10 (amended): for every successful run, all four steps are
reset to pending at progress 0 at run start; preprocessing and training
each pass through running before completing; generation enters running
but is never marked completed or error (its completion is commented out);
validation reaches completed without ever being running (its running
transition is commented out); and no step re-enters pending after leaving
it. -/
theorem c10_step_lifecycle (ps : List ℚ) :
    (statesOf initialSteps (runStepsMutations ps))[1]? = some initialSteps
    ∧ terminalAfterRunning (statusTrace ps 0) = true
    ∧ terminalAfterRunning (statusTrace ps 1) = true
    ∧ (StepStatus.running ∈ statusTrace ps 2
      ∧ StepStatus.completed ∉ statusTrace ps 2 ∧ StepStatus.error ∉ statusTrace ps 2)
    ∧ (StepStatus.completed ∈ statusTrace ps 3 ∧ StepStatus.running ∉ statusTrace ps 3)
    ∧ (∀ k : Fin 4, reentersPending (statusTrace ps k) = false) := by
  have h0 : statusTrace ps 0
      = [StepStatus.pending, .pending, .running, .running, .running, .running, .running,
          .running, .running, .completed]
        ++ (List.replicate ps.length StepStatus.completed
          ++ List.replicate 10 StepStatus.completed) := by
    rw [statusTrace_decomposed ps 0,
      show ((statesOf initialSteps mutsBeforeTicks).dropLast.map fun s => (s 0).status)
        = [StepStatus.pending, .pending, .running, .running, .running, .running, .running,
            .running, .running, .completed] from by decide,
      show (stepsAfterTraining 0).status = .completed from rfl,
      show ((statesOf stepsAfterTraining mutsAfterTicks).map fun s => (s 0).status)
        = List.replicate 10 StepStatus.completed from by decide]
  have h1 : statusTrace ps 1
      = List.replicate 10 StepStatus.pending
        ++ (List.replicate ps.length StepStatus.running
          ++ (StepStatus.running :: List.replicate 9 StepStatus.completed)) := by
    rw [statusTrace_decomposed ps 1,
      show ((statesOf initialSteps mutsBeforeTicks).dropLast.map fun s => (s 1).status)
        = List.replicate 10 StepStatus.pending from by decide,
      show (stepsAfterTraining 1).status = .running from rfl,
      show ((statesOf stepsAfterTraining mutsAfterTicks).map fun s => (s 1).status)
        = StepStatus.running :: List.replicate 9 StepStatus.completed from by decide]
  have h2 : statusTrace ps 2
      = List.replicate 10 StepStatus.pending
        ++ (List.replicate ps.length StepStatus.pending
          ++ (StepStatus.pending :: StepStatus.pending
            :: List.replicate 8 StepStatus.running)) := by
    rw [statusTrace_decomposed ps 2,
      show ((statesOf initialSteps mutsBeforeTicks).dropLast.map fun s => (s 2).status)
        = List.replicate 10 StepStatus.pending from by decide,
      show (stepsAfterTraining 2).status = .pending from rfl,
      show ((statesOf stepsAfterTraining mutsAfterTicks).map fun s => (s 2).status)
        = StepStatus.pending :: StepStatus.pending :: List.replicate 8 StepStatus.running
        from by decide]
  have h3 : statusTrace ps 3
      = List.replicate 10 StepStatus.pending
        ++ (List.replicate ps.length StepStatus.pending
          ++ (List.replicate 9 StepStatus.pending ++ [StepStatus.completed])) := by
    rw [statusTrace_decomposed ps 3,
      show ((statesOf initialSteps mutsBeforeTicks).dropLast.map fun s => (s 3).status)
        = List.replicate 10 StepStatus.pending from by decide,
      show (stepsAfterTraining 3).status = .pending from rfl,
      show ((statesOf stepsAfterTraining mutsAfterTicks).map fun s => (s 3).status)
        = List.replicate 9 StepStatus.pending ++ [StepStatus.completed] from by decide]
  refine ⟨rfl, ?_, ?_, ?_, ?_, ?_⟩
  · rw [terminalAfterRunning, h0]
    show terminalAfterRunningAux false
      (.pending :: .pending :: .running :: .running :: .running :: .running :: .running
        :: .running :: .running :: .completed
        :: (List.replicate ps.length StepStatus.completed
          ++ List.replicate 10 StepStatus.completed)) = true
    simp only [terminalAfterRunningAux, Bool.true_and]
    rw [terminalAfterRunningAux_replicate_completed]
    decide
  · rw [terminalAfterRunning, h1, terminalAfterRunningAux_replicate_pending,
      terminalAfterRunningAux_replicate_running]
    decide
  · rw [h2]
    refine ⟨?_, ?_, ?_⟩
    · simp [List.mem_append, List.mem_replicate]
    · simp [List.mem_append, List.mem_replicate]
    · simp [List.mem_append, List.mem_replicate]
  · rw [h3]
    constructor
    · simp [List.mem_append, List.mem_replicate]
    · simp [List.mem_append, List.mem_replicate]
  · intro k
    fin_cases k
    · show reentersPending (statusTrace ps 0) = false
      rw [h0]
      show reentersPending
        (.pending :: .pending
          :: ([StepStatus.running, .running, .running, .running, .running, .running,
              .running, .completed]
            ++ (List.replicate ps.length StepStatus.completed
              ++ List.replicate 10 StepStatus.completed))) = false
      rw [reentersPending_cons_pending, reentersPending_cons_pending]
      refine reentersPending_of_no_pending _ ?_
      simp [List.mem_append, List.mem_replicate]
    · show reentersPending (statusTrace ps 1) = false
      rw [h1, reentersPending_replicate_pending]
      refine reentersPending_of_no_pending _ ?_
      simp [List.mem_append, List.mem_replicate]
    · show reentersPending (statusTrace ps 2) = false
      rw [h2, reentersPending_replicate_pending, reentersPending_replicate_pending,
        reentersPending_cons_pending, reentersPending_cons_pending]
      refine reentersPending_of_no_pending _ ?_
      simp [List.mem_replicate]
    · show reentersPending (statusTrace ps 3) = false
      rw [h3, reentersPending_replicate_pending, reentersPending_replicate_pending,
        reentersPending_replicate_pending]
      decide

/-- Witness for the amended C10 at the concrete run with training ticks
40 then 80. -/
theorem c10_step_lifecycle_witness :
    terminalAfterRunning (statusTrace [40, 80] 0) = true :=
  (c10_step_lifecycle [40, 80]).2.1

end SpoofFrontend
